import Mathlib

/-!
Verification of the stream broadcaster and fan-out/join coordinator of the
mqvision repository (multi_writer_pipe.go, main.go, internal/concierge).

Byte streams are modelled as lists of naturals.  Each internal io.Pipe is
modelled by its cumulative delivered byte buffer together with the closed
flags of its two halves; goroutine interleavings are sequentialised, which
is faithful here because SingleInMultiOutPipeWriter.Write holds a mutex and
a write is complete only once every internal pipe has accepted the chunk.
-/

/-- A Go error value, identified by its message. -/
structure GoError where
  msg : String
deriving DecidableEq, Repr

/-- The io package sentinel ErrClosedPipe. -/
def errClosedPipe : GoError := { msg := "io: read/write on closed pipe" }

/-- The io package sentinel ErrShortWrite. -/
def errShortWrite : GoError := { msg := "short write" }

/-- One internal io.Pipe of a broadcast set.  `buf` is the cumulative
sequence of bytes delivered through the pipe, `writeClosed` and
`readClosed` record whether the writer half (pw) or reader half (pr)
has been closed. -/
structure Pipe where
  buf : List Nat
  writeClosed : Bool
  readClosed : Bool
deriving DecidableEq, Repr

/-- A freshly created io.Pipe (multi_writer_pipe.go line 85). -/
def Pipe.new : Pipe := { buf := [], writeClosed := false, readClosed := false }

/-- io.PipeWriter.Write: once either half of the pipe is closed a write
returns 0 bytes and ErrClosedPipe; otherwise the whole chunk is delivered
to the reader, in order. -/
def pipeWrite (q : Pipe) (p : List Nat) : Pipe × Nat × Option GoError :=
  if q.writeClosed || q.readClosed then (q, 0, some errClosedPipe)
  else ({ q with buf := q.buf ++ p }, p.length, none)

/-- io.PipeWriter.Close: marks the writer half closed and always returns
a nil error. -/
def pipeCloseWrite (q : Pipe) : Pipe × Option GoError :=
  ({ q with writeClosed := true }, none)

/-- io.PipeReader.Close (called by SingleInMultiOutPipeReader.Close,
multi_writer_pipe.go lines 13-18): marks the reader half closed and always
returns a nil error. -/
def pipeCloseRead (q : Pipe) : Pipe × Option GoError :=
  ({ q with readClosed := true }, none)

/-- multi_writer_pipe.go lines 20-25: the write-endpoint.  In the source
the `writers` and `closers` slices alias the same per-reader pipe writers,
so both are represented by the single `pipes` list. -/
structure SingleInMultiOutPipeWriter where
  pipes : List Pipe
  closed : Bool
deriving DecidableEq, Repr

/-- One iteration of the forwarding loop in
SingleInMultiOutPipeWriter.Write (multi_writer_pipe.go lines 38-46):
forward the chunk to the next pipe, keep the first error encountered,
and record ErrShortWrite if a pipe accepted fewer bytes than requested
while no error was recorded yet. -/
def writeStep (p : List Nat) (acc : List Pipe × Option GoError) (q : Pipe) :
    List Pipe × Option GoError :=
  let r := pipeWrite q p
  let firstErr :=
    match acc.2 with
    | some e => some e
    | none => r.2.2
  let firstErr2 :=
    if r.2.1 ≠ p.length ∧ firstErr = none then some errShortWrite else firstErr
  (acc.1 ++ [r.1], firstErr2)

/-- multi_writer_pipe.go lines 27-52: Write forwards the chunk to every
internal pipe (a failure does not abort the remaining forwards), reports
the full chunk length as accepted, and returns the first failure
encountered (nil if none).  After Close it returns (0, ErrClosedPipe). -/
def SingleInMultiOutPipeWriter.write (w : SingleInMultiOutPipeWriter) (p : List Nat) :
    SingleInMultiOutPipeWriter × Nat × Option GoError :=
  if w.closed then (w, 0, some errClosedPipe)
  else
    let r := w.pipes.foldl (writeStep p) ([], none)
    ({ w with pipes := r.1 }, p.length, r.2)

/-- One iteration of the closing loop in SingleInMultiOutPipeWriter.Close
(multi_writer_pipe.go lines 63-68): close the next pipe writer and collect
its error, if any. -/
def closeStep (acc : List Pipe × List GoError) (q : Pipe) : List Pipe × List GoError :=
  match pipeCloseWrite q with
  | (q2, some e) => (acc.1 ++ [q2], acc.2 ++ [e])
  | (q2, none) => (acc.1 ++ [q2], acc.2)

/-- multi_writer_pipe.go lines 54-74: Close is a no-op returning nil when
already closed; otherwise it marks the endpoint closed, closes every
internal pipe writer, collects the per-pipe errors and returns the first
of them (nil if none). -/
def SingleInMultiOutPipeWriter.close (w : SingleInMultiOutPipeWriter) :
    SingleInMultiOutPipeWriter × Option GoError :=
  if w.closed then (w, none)
  else
    let r := w.pipes.foldl closeStep ([], [])
    ({ pipes := r.1, closed := true }, r.2.head?)

/-- multi_writer_pipe.go lines 13-18 applied to reader `i` of a broadcast
set: SingleInMultiOutPipeReader.Close closes the reader half of that one
pipe (its `closer` is the pr of its own pipe) and touches nothing else. -/
def readerClose (w : SingleInMultiOutPipeWriter) (i : Nat) : SingleInMultiOutPipeWriter :=
  { w with pipes := w.pipes.set i (pipeCloseRead (w.pipes.getD i Pipe.new)).1 }

/-- multi_writer_pipe.go lines 79-101: create readerCount fresh pipes,
one write-endpoint over all of them, and one read-endpoint per pipe.
The read-endpoints are returned as the indices 0..readerCount-1 into the
write-endpoint's pipe list. -/
def SingleInMultiOutPipe (readerCount : Nat) :
    SingleInMultiOutPipeWriter × List Nat :=
  ({ pipes := List.replicate readerCount Pipe.new, closed := false },
   List.range readerCount)

/-- Fully draining read-endpoint `i` yields the pipe's cumulative
delivered bytes: io.Pipe hands every written chunk, in order, to its
reader. -/
def readerBytes (w : SingleInMultiOutPipeWriter) (i : Nat) : List Nat :=
  (w.pipes.getD i Pipe.new).buf

/-- The producer loop (io.Copy into the write-endpoint, main.go line 436):
write each chunk of the source in order, ignoring the informational
error component. -/
def writeAll (w : SingleInMultiOutPipeWriter) (chunks : List (List Nat)) :
    SingleInMultiOutPipeWriter :=
  chunks.foldl (fun st c => (st.write c).1) w

/-- A broadcaster state in which every one of the `n` pipes is open and
has delivered exactly `b`: the state reached from SingleInMultiOutPipe n
after uniformly broadcasting `b`. -/
def uniformState (n : Nat) (b : List Nat) : SingleInMultiOutPipeWriter :=
  { pipes := List.replicate n { buf := b, writeClosed := false, readClosed := false },
    closed := false }

/-- The pipe produced by forwarding chunk `p` to pipe `q`. -/
def writeFst (p : List Nat) (q : Pipe) : Pipe := (pipeWrite q p).1

/-- The error produced by forwarding chunk `p` to pipe `q`. -/
def writeErr (p : List Nat) (q : Pipe) : Option GoError := (pipeWrite q p).2.2

lemma foldl_writeStep_some (p : List Nat) (ps : List Pipe) :
    ∀ (acc : List Pipe) (e : GoError),
      ps.foldl (writeStep p) (acc, some e) = (acc ++ ps.map (writeFst p), some e) := by
  induction ps with
  | nil => intro acc e; simp
  | cons q qs ih =>
      intro acc e
      have hstep : writeStep p (acc, some e) q = (acc ++ [writeFst p q], some e) := by
        simp [writeStep, writeFst]
      rw [List.foldl_cons, hstep, ih]
      simp

lemma foldl_writeStep_none (p : List Nat) (ps : List Pipe) :
    ∀ acc : List Pipe,
      ps.foldl (writeStep p) (acc, none) =
        (acc ++ ps.map (writeFst p), (ps.filterMap (writeErr p)).head?) := by
  induction ps with
  | nil => intro acc; simp
  | cons q qs ih =>
      intro acc
      by_cases hq : (q.writeClosed || q.readClosed) = true
      · have hpw : pipeWrite q p = (q, 0, some errClosedPipe) := by
          simp [pipeWrite, hq]
        have hstep : writeStep p (acc, none) q = (acc ++ [q], some errClosedPipe) := by
          simp [writeStep, hpw]
        rw [List.foldl_cons, hstep, foldl_writeStep_some]
        simp [writeFst, writeErr, hpw, List.filterMap_cons, List.append_assoc]
      · have hpw : pipeWrite q p = ({ q with buf := q.buf ++ p }, p.length, none) := by
          simp [pipeWrite, hq]
        have hstep : writeStep p (acc, none) q =
            (acc ++ [{ q with buf := q.buf ++ p }], none) := by
          simp [writeStep, hpw]
        rw [List.foldl_cons, hstep, ih]
        simp [writeFst, writeErr, hpw, List.filterMap_cons, List.append_assoc]

lemma write_eq (w : SingleInMultiOutPipeWriter) (p : List Nat) (h : w.closed = false) :
    w.write p =
      ({ pipes := w.pipes.map (writeFst p), closed := false }, p.length,
        (w.pipes.filterMap (writeErr p)).head?) := by
  simp [SingleInMultiOutPipeWriter.write, h, foldl_writeStep_none]

lemma foldl_closeStep (ps : List Pipe) :
    ∀ (acc : List Pipe) (errs : List GoError),
      ps.foldl closeStep (acc, errs) =
        (acc ++ ps.map (fun q => { q with writeClosed := true }), errs) := by
  induction ps with
  | nil => intro acc errs; simp
  | cons q qs ih =>
      intro acc errs
      have hstep : closeStep (acc, errs) q = (acc ++ [{ q with writeClosed := true }], errs) := by
        simp [closeStep, pipeCloseWrite]
      rw [List.foldl_cons, hstep, ih]
      simp [List.append_assoc]

lemma close_eq (w : SingleInMultiOutPipeWriter) (h : w.closed = false) :
    w.close =
      ({ pipes := w.pipes.map (fun q => { q with writeClosed := true }), closed := true },
        none) := by
  simp [SingleInMultiOutPipeWriter.close, h, foldl_closeStep]

lemma write_uniform_fst (n : Nat) (b c : List Nat) :
    ((uniformState n b).write c).1 = uniformState n (b ++ c) := by
  rw [write_eq _ _ rfl]
  simp [uniformState, writeFst, pipeWrite]

lemma writeAll_cons (w : SingleInMultiOutPipeWriter) (c : List Nat) (cs : List (List Nat)) :
    writeAll w (c :: cs) = writeAll (w.write c).1 cs := rfl

lemma writeAll_uniform (chunks : List (List Nat)) :
    ∀ (n : Nat) (b : List Nat),
      writeAll (uniformState n b) chunks = uniformState n (b ++ chunks.flatten) := by
  induction chunks with
  | nil => intro n b; simp [writeAll]
  | cons c cs ih =>
      intro n b
      rw [writeAll_cons, write_uniform_fst, ih]
      simp [List.append_assoc]

lemma list_getD_replicate {α : Type} (a d : α) :
    ∀ (n i : Nat), i < n → (List.replicate n a).getD i d = a := by
  intro n
  induction n with
  | zero => intro i hi; omega
  | succ m ih =>
      intro i hi
      cases i with
      | zero => simp [List.replicate_succ]
      | succ j =>
          simp only [List.replicate_succ, List.getD_cons_succ]
          exact ih j (by omega)

lemma list_map_set {α β : Type} (f : α → β) :
    ∀ (l : List α) (i : Nat) (a : α),
      (l.set i a).map f = (l.map f).set i (f a) := by
  intro l
  induction l with
  | nil => intro i a; simp
  | cons x xs ih =>
      intro i a
      cases i with
      | zero => simp
      | succ j => simp [ih j a]

lemma list_getD_set_self {α : Type} (d : α) :
    ∀ (l : List α) (i : Nat) (a : α), i < l.length → (l.set i a).getD i d = a := by
  intro l
  induction l with
  | nil => intro i a hi; simp at hi
  | cons x xs ih =>
      intro i a hi
      cases i with
      | zero => simp
      | succ j =>
          simp only [List.set_cons_succ, List.getD_cons_succ]
          exact ih j a (by simpa using hi)

lemma list_getD_set_ne {α : Type} (d : α) :
    ∀ (l : List α) (i j : Nat) (a : α), i ≠ j → (l.set i a).getD j d = l.getD j d := by
  intro l
  induction l with
  | nil => intro i j a hij; simp
  | cons x xs ih =>
      intro i j a hij
      cases i with
      | zero =>
          cases j with
          | zero => exact absurd rfl hij
          | succ k => simp
      | succ i2 =>
          cases j with
          | zero => simp
          | succ k =>
              simp only [List.set_cons_succ, List.getD_cons_succ]
              exact ih i2 k a (by omega)

lemma head_filterMap_set_replicate {α β : Type} (f : α → Option β) (q0 q1 : α) (e : β)
    (h0 : f q0 = none) (h1 : f q1 = some e) :
    ∀ (n i : Nat), i < n →
      (((List.replicate n q0).set i q1).filterMap f).head? = some e := by
  intro n
  induction n with
  | zero => intro i hi; omega
  | succ m ih =>
      intro i hi
      cases i with
      | zero => simp [List.replicate_succ, List.filterMap_cons, h1]
      | succ j =>
          simp only [List.replicate_succ, List.set_cons_succ, List.filterMap_cons, h0]
          exact ih j (by omega)

/-- C1: for every byte sequence B (given as any partition into chunks) and
every reader count n ≥ 1, writing all chunks to the write-endpoint of
SingleInMultiOutPipe(n) and fully draining read-endpoint i (for any i < n)
yields exactly B, byte-identical and in source order; so all n endpoints
receive identical copies of B. -/
theorem broadcast_delivers_identical_copies (chunks : List (List Nat)) (n i : Nat)
    (hn : 1 ≤ n) (hi : i < n) :
    readerBytes (writeAll (SingleInMultiOutPipe n).1 chunks) i = chunks.flatten := by
  have h0 : (SingleInMultiOutPipe n).1 = uniformState n [] := rfl
  rw [h0, writeAll_uniform]
  unfold readerBytes uniformState
  rw [list_getD_replicate _ _ n i hi]
  simp

/-- Witness for C1 at chunks = [[1],[2,3]], n = 2, i = 1. -/
theorem broadcast_delivers_identical_copies_witness :
    readerBytes (writeAll (SingleInMultiOutPipe 2).1 [[1], [2, 3]]) 1 = [1, 2, 3] := by
  have h := broadcast_delivers_identical_copies [[1], [2, 3]] 2 1 (by decide) (by decide)
  simpa using h

/-- C3: on a broadcaster whose write-endpoint is not closed, Write(p)
attempts the forward to every internal pipe (the resulting pipe list is the
image of the whole pipe list under the per-pipe forward, so no failure
aborts the remaining forwards), reports the full chunk length as accepted,
and returns the first per-pipe failure encountered (none if all
succeeded). -/
theorem write_forwards_to_all_pipes (w : SingleInMultiOutPipeWriter) (p : List Nat)
    (h : w.closed = false) :
    (w.write p).2.1 = p.length ∧
    (w.write p).1.pipes = w.pipes.map (writeFst p) ∧
    (w.write p).2.2 = (w.pipes.filterMap (writeErr p)).head? := by
  rw [write_eq w p h]
  exact ⟨rfl, rfl, rfl⟩

/-- Witness for C3 on a two-reader broadcaster whose first read-endpoint
was closed early. -/
theorem write_forwards_to_all_pipes_witness :
    ((readerClose (uniformState 2 []) 0).write [7]).2.1 = 1 ∧
    ((readerClose (uniformState 2 []) 0).write [7]).1.pipes =
      (readerClose (uniformState 2 []) 0).pipes.map (writeFst [7]) ∧
    ((readerClose (uniformState 2 []) 0).write [7]).2.2 =
      ((readerClose (uniformState 2 []) 0).pipes.filterMap (writeErr [7])).head? := by
  have h := write_forwards_to_all_pipes (readerClose (uniformState 2 []) 0) [7] rfl
  exact ⟨h.1, h.2.1, h.2.2⟩

/-- C4: once the write-endpoint has been closed, every subsequent Write(p)
fails with the closed-pipe error, returns 0 bytes written, and leaves the
whole broadcaster (in particular every internal pipe) unchanged. -/
theorem write_after_close_rejected (w : SingleInMultiOutPipeWriter) (p : List Nat)
    (h : w.closed = true) :
    w.write p = (w, 0, some errClosedPipe) := by
  simp [SingleInMultiOutPipeWriter.write, h]

/-- Witness for C4: a write after closing the write-endpoint of a fresh
two-reader broadcaster. -/
theorem write_after_close_rejected_witness :
    ((SingleInMultiOutPipe 2).1.close).1.write [1] =
      (((SingleInMultiOutPipe 2).1.close).1, 0, some errClosedPipe) :=
  write_after_close_rejected ((SingleInMultiOutPipe 2).1.close).1 [1] (by decide)

/-- C5: the first Close of a not-yet-closed write-endpoint closes every
internal pipe exactly once (the pipe list is the image of the whole list
under the per-pipe close, so closure is attempted on all pipes), marks the
endpoint closed, and returns the head of the collected per-pipe close
errors, which is nil because io.PipeWriter.Close never fails; every
subsequent Close changes nothing and returns nil, so Close after Close
equals Close. -/
theorem writer_close_idempotent (w : SingleInMultiOutPipeWriter) (h : w.closed = false) :
    (w.close).1.pipes = w.pipes.map (fun q => { q with writeClosed := true }) ∧
    (w.close).1.closed = true ∧
    (w.close).2 = none ∧
    ((w.close).1).close = ((w.close).1, none) := by
  have hclose := close_eq w h
  refine ⟨by rw [hclose], by rw [hclose], by rw [hclose], ?_⟩
  rw [hclose]
  simp [SingleInMultiOutPipeWriter.close]

/-- Witness for C5 on a fresh two-reader broadcaster. -/
theorem writer_close_idempotent_witness :
    ((SingleInMultiOutPipe 2).1.close).2 = none ∧
    (((SingleInMultiOutPipe 2).1.close).1).close =
      (((SingleInMultiOutPipe 2).1.close).1, none) := by
  have h := writer_close_idempotent (SingleInMultiOutPipe 2).1 rfl
  exact ⟨h.2.2.1, h.2.2.2⟩

/-- C6: on a broadcaster in which every pipe is open and has delivered b,
closing read-endpoint i changes nothing outside pipe i (the write-endpoint
stays open and every sibling pipe is untouched), and a subsequent Write(p)
still reports the full length, still delivers p to every surviving pipe,
and surfaces the closed pipe's failure only in the returned error; pipe i
receives nothing. -/
theorem reader_close_isolated (n i : Nat) (b p : List Nat) (hi : i < n) :
    (readerClose (uniformState n b) i).closed = false ∧
    (∀ j, j < n → j ≠ i →
      (readerClose (uniformState n b) i).pipes.getD j Pipe.new =
        { buf := b, writeClosed := false, readClosed := false }) ∧
    ((readerClose (uniformState n b) i).write p).2.1 = p.length ∧
    ((readerClose (uniformState n b) i).write p).2.2 = some errClosedPipe ∧
    (∀ j, j < n → j ≠ i →
      (((readerClose (uniformState n b) i).write p).1.pipes.getD j Pipe.new).buf = b ++ p) ∧
    (((readerClose (uniformState n b) i).write p).1.pipes.getD i Pipe.new).buf = b := by
  have hq0 : (uniformState n b).pipes.getD i Pipe.new =
      { buf := b, writeClosed := false, readClosed := false } := by
    unfold uniformState
    exact list_getD_replicate _ _ n i hi
  have hrc : readerClose (uniformState n b) i =
      { pipes := (List.replicate n
            { buf := b, writeClosed := false, readClosed := false }).set i
          { buf := b, writeClosed := false, readClosed := true },
        closed := false } := by
    unfold readerClose
    rw [hq0]
    rfl
  have hopen : writeFst p { buf := b, writeClosed := false, readClosed := false } =
      { buf := b ++ p, writeClosed := false, readClosed := false } := by
    simp [writeFst, pipeWrite]
  have hclosedpipe : writeFst p { buf := b, writeClosed := false, readClosed := true } =
      { buf := b, writeClosed := false, readClosed := true } := by
    simp [writeFst, pipeWrite]
  have herr0 : writeErr p { buf := b, writeClosed := false, readClosed := false } = none := by
    simp [writeErr, pipeWrite]
  have herr1 : writeErr p { buf := b, writeClosed := false, readClosed := true } =
      some errClosedPipe := by
    simp [writeErr, pipeWrite]
  have hw := write_eq (readerClose (uniformState n b) i) p (by rw [hrc])
  have hpipes : ((readerClose (uniformState n b) i).write p).1.pipes =
      (List.replicate n { buf := b ++ p, writeClosed := false, readClosed := false }).set i
        { buf := b, writeClosed := false, readClosed := true } := by
    rw [hw, hrc]
    simp only [list_map_set, List.map_replicate, hopen, hclosedpipe]
  refine ⟨by rw [hrc], ?_, ?_, ?_, ?_, ?_⟩
  · intro j hj hji
    rw [hrc]
    simp only
    rw [list_getD_set_ne _ _ i j _ (fun he => hji he.symm)]
    exact list_getD_replicate _ _ n j hj
  · rw [hw]
  · rw [hw, hrc]
    simp only
    exact head_filterMap_set_replicate (writeErr p) _ _ _ herr0 herr1 n i hi
  · intro j hj hji
    rw [hpipes, list_getD_set_ne _ _ i j _ (fun he => hji he.symm),
      list_getD_replicate _ _ n j hj]
  · rw [hpipes, list_getD_set_self]
    simp [hi]

/-- Witness for C6 at n = 2, i = 0, b = [9], p = [5]. -/
theorem reader_close_isolated_witness :
    ((readerClose (uniformState 2 [9]) 0).write [5]).2.1 = 1 ∧
    ((readerClose (uniformState 2 [9]) 0).write [5]).2.2 = some errClosedPipe ∧
    (((readerClose (uniformState 2 [9]) 0).write [5]).1.pipes.getD 1 Pipe.new).buf = [9, 5] ∧
    (((readerClose (uniformState 2 [9]) 0).write [5]).1.pipes.getD 0 Pipe.new).buf = [9] := by
  have h := reader_close_isolated 2 0 [9] [5] (by decide)
  exact ⟨h.2.2.1, h.2.2.2.1, h.2.2.2.2.1 1 (by decide) (by decide), h.2.2.2.2.2⟩

/-- C10: SingleInMultiOutPipe performs no validation of readerCount:
called with 0 it returns a write-endpoint with no pipes and an empty
read-endpoint list, and every Write(p) on it succeeds vacuously, returning
the full length and no error while leaving the (empty) pipe list with no
recipient of the bytes. -/
theorem zero_readers_vacuous_write :
    (SingleInMultiOutPipe 0).2 = [] ∧
    (SingleInMultiOutPipe 0).1.pipes = [] ∧
    ∀ p : List Nat,
      (SingleInMultiOutPipe 0).1.write p = ((SingleInMultiOutPipe 0).1, p.length, none) := by
  refine ⟨rfl, rfl, ?_⟩
  intro p
  rfl

/-- internal/gemini/gemini.go lines 167-172: the structured reading
extracted from a gauge image.  The two time-typed bookkeeping fields are
modelled as strings. -/
structure GasMeterReadResult where
  read : String
  date : String
  readAt : String
  itTakes : String
deriving DecidableEq, Repr

/-- main.go lines 340-343: the Aggregated Artifact.  The embedded
*genai.GasMeterReadResult is a nil-able pointer, modelled as an Option. -/
structure Luggage where
  gasMeterReadResult : Option GasMeterReadResult
  srcImageURL : String
deriving DecidableEq, Repr

/-- main.go lines 573-605: the values of srcImgStoredURL and readResult
after the wait barrier, as functions of the two consumer outcomes.  When
PostImage fails, the concierge goroutine returns after the assignment and
srcImgStoredURL keeps the zero value "" (concierge.go returns "" on every
error path); when ReadGasGuagePic fails, readResult keeps the zero value
nil; its own nil-result check only logs. -/
def joinOutcomes (conciergeOutcome : Except GoError String)
    (geminiOutcome : Except GoError (Option GasMeterReadResult)) : Luggage :=
  { gasMeterReadResult :=
      match geminiOutcome with
      | Except.ok r => r
      | Except.error _ => none,
    srcImageURL :=
      match conciergeOutcome with
      | Except.ok url => url
      | Except.error _ => "" }

/-- main.go lines 566-616 (mqttReadGuageSubHandler): the list of
Aggregated Artifacts the handler enqueues on chLuggage for one broadcast.
After wg.Wait() the handler unconditionally builds the Luggage and sends
it (lines 607-612); the error and nil-result returns at lines 596-603 only
leave the inner goroutine. -/
def mqttReadGuageSubHandlerEnqueued (conciergeOutcome : Except GoError String)
    (geminiOutcome : Except GoError (Option GasMeterReadResult)) : List Luggage :=
  [joinOutcomes conciergeOutcome geminiOutcome]

/-- main.go lines 467-483: the single-shot path after wg.Wait().  A gemini
error or a nil readResult returns before building the Luggage, so at most
one artifact (none on those paths) is enqueued. -/
def singleShotJoin (conciergeOutcome : Except GoError String)
    (geminiOutcome : Except GoError (Option GasMeterReadResult)) : Option Luggage :=
  match geminiOutcome with
  | Except.error _ => none
  | Except.ok none => none
  | Except.ok (some r) =>
      some { gasMeterReadResult := some r,
             srcImageURL :=
               match conciergeOutcome with
               | Except.ok url => url
               | Except.error _ => "" }

/-- C2 evidence: when the reading-extraction consumer returns a nil result
or fails, the MQTT handler still enqueues exactly one Luggage (whose
reading is nil), contradicting the claim that nothing is enqueued; the
single-shot path does honour the claim and enqueues nothing. -/
theorem nil_reading_still_enqueued_on_mqtt_path :
    mqttReadGuageSubHandlerEnqueued (Except.ok "https://store/abc") (Except.ok none) =
      [{ gasMeterReadResult := none, srcImageURL := "https://store/abc" }] ∧
    mqttReadGuageSubHandlerEnqueued (Except.ok "https://store/abc")
        (Except.error { msg := "failed to analyze" }) =
      [{ gasMeterReadResult := none, srcImageURL := "https://store/abc" }] ∧
    singleShotJoin (Except.ok "https://store/abc") (Except.ok none) = none :=
  ⟨rfl, rfl, rfl⟩

/-- C7: whenever the archival consumer fails and the extraction consumer
succeeds with a non-nil result r, both coordinator paths produce exactly
one Aggregated Artifact, carrying r and the empty string as its archival
(storage) reference. -/
theorem archival_failure_yields_artifact_with_empty_url
    (e : GoError) (r : GasMeterReadResult) :
    mqttReadGuageSubHandlerEnqueued (Except.error e) (Except.ok (some r)) =
      [{ gasMeterReadResult := some r, srcImageURL := "" }] ∧
    singleShotJoin (Except.error e) (Except.ok (some r)) =
      some { gasMeterReadResult := some r, srcImageURL := "" } :=
  ⟨rfl, rfl⟩

/-- The Bounded Delivery Queue: main.go line 376 creates
chLuggage = make(chan *Luggage, 10), a capacity-bounded Go channel. -/
structure LuggageChan where
  buf : List Luggage
  cap : Nat
  closed : Bool
deriving DecidableEq, Repr

/-- The outcome of one Go channel send: delivered into the buffer,
blocked because the buffer is full, or a runtime panic. -/
inductive ChanSendResult where
  | delivered (ch : LuggageChan)
  | blocked (ch : LuggageChan)
  | panicked
deriving DecidableEq, Repr

/-- Go channel send semantics for `chLuggage <- l` (main.go line 612):
a send on a closed channel is a runtime panic; otherwise the value is
buffered when capacity remains and the sender blocks when the buffer is
full — it is never silently dropped. -/
def LuggageChan.send (ch : LuggageChan) (l : Luggage) : ChanSendResult :=
  if ch.closed then ChanSendResult.panicked
  else if ch.buf.length < ch.cap then
    ChanSendResult.delivered { ch with buf := ch.buf ++ [l] }
  else ChanSendResult.blocked ch

/-- main.go line 376: the queue as created at process start. -/
def chLuggageInit : LuggageChan := { buf := [], cap := 10, closed := false }

/-- main.go line 538: close(chLuggage) at shutdown. -/
def closeLuggageChan (ch : LuggageChan) : LuggageChan := { ch with closed := true }

/-- C8: enqueuing an Aggregated Artifact after the delivery queue has been
closed fails loudly with a runtime panic; it is never a silent drop. -/
theorem enqueue_after_close_fails_loudly (ch : LuggageChan) (l : Luggage) :
    (closeLuggageChan ch).send l = ChanSendResult.panicked := rfl

/-- internal/concierge/concierge.go lines 32-43 (Client.PostImage):
`var body bytes.Buffer` followed by `io.Copy(fileWriter, image)` appends
every chunk of the read-stream to the in-memory body before the HTTP
request is even constructed.  The multipart framing bytes are elided, so
this is the image payload portion of the buffer held in memory at the end
of the copy. -/
def postImageBody (image : List (List Nat)) : List Nat :=
  image.foldl (fun body chunk => body ++ chunk) []

/-- The largest single chunk of a stream: the memory bound the claim
asserts for every component. -/
def maxChunkLen (image : List (List Nat)) : Nat :=
  (image.map List.length).foldr Nat.max 0

/-- C9 counterexample: for the two-chunk stream [[0],[1]], the multipart
body PostImage holds in memory before forwarding is strictly larger than
any single chunk, so the memory held is not bounded by a chunk. -/
theorem memory_not_bounded_by_chunk_cex :
    maxChunkLen [[0], [1]] < (postImageBody [[0], [1]]).length := by decide

lemma foldl_append_flatten (l : List (List Nat)) :
    ∀ acc : List Nat, l.foldl (fun body chunk => body ++ chunk) acc = acc ++ l.flatten := by
  induction l with
  | nil => intro acc; simp
  | cons c cs ih => intro acc; simp [List.foldl_cons, ih, List.append_assoc]

/-- C9 amended: the archival consumer does buffer the whole source stream
in memory before forwarding it — after PostImage's copy loop the in-memory
body holds every byte of the stream, so the memory held grows with the
total stream length rather than being bounded by a chunk. -/
theorem postImage_buffers_whole_stream (image : List (List Nat)) :
    postImageBody image = image.flatten := by
  simpa [postImageBody] using foldl_append_flatten image []
